import Mathlib

/-!
# Verification of the latency-clock decoder (`decodetimeoverlay.c`)

Shallow embedding of the decoder that recovers six 64-bit clock values from
a 640x480 RGB frame in which each bit is an 8x8 pixel block.  Machine
integers are modelled as `Nat`/`Int` with explicit `% 2^32` / `% 2^64`
where C unsigned arithmetic can wrap.  The PPM header parser is modelled
as a step function over the list of remaining input lines, so that the
behaviour of the C `while` loop on a truncated input (its `read_line`
failing forever) is visible as a fixpoint of the step function.
-/

namespace LatencyClock

/-- `const unsigned int WIDTH = 640;` -/
def WIDTH : ℕ := 640

/-- `const unsigned int HEIGHT = 480;` -/
def HEIGHT : ℕ := 480

/-- `const unsigned int PIXELS_PER_BIT = 8;` -/
def PIXELS_PER_BIT : ℕ := 8

/-- `const unsigned int PIXEL_STRIDE = 3;` bytes per 24-bit RGB pixel. -/
def PIXEL_STRIDE : ℕ := 3

/-- `const unsigned int number_of_clocks = 6;` -/
def number_of_clocks : ℕ := 6

/-- `const unsigned int number_of_bits_per_clock = 64;` -/
def number_of_bits_per_clock : ℕ := 64

/-- The result record of `decode_timestamps`.  All seven fields are
`__uint64_t` in the C source (including `latency`), modelled as `ℕ`
values below `2^64`. -/
structure encoded_clocks_t where
  buffer_time : ℕ
  stream_time : ℕ
  running_time : ℕ
  clock_time : ℕ
  render_time : ℕ
  render_realtime : ℕ
  latency : ℕ

/-- The accumulation loop of `read_timestamp`: after `k` iterations the
C variable `timestamp` holds `read_bits sample k`, where `sample bit`
says whether the byte sampled for `bit` has its high bit set.  Mirrors
`timestamp |= (color & 0x80) ? (uint64_t)1 << (63 - bit) : 0;`. -/
def read_bits (sample : ℕ → Bool) : ℕ → ℕ
  | 0 => 0
  | k + 1 => read_bits sample k ||| (if sample k then 2 ^ (63 - k) else 0)

/-- `read_timestamp(lineoffset, buf, stride, pxsize)`: advances `buf` by
`(lineoffset * PIXELS_PER_BIT + 4) * stride` bytes, then for each of the
64 bits reads the byte `buf[bit * pxsize * PIXELS_PER_BIT + 4]` and ORs
`1 << (63 - bit)` into the result when its high bit (`& 0x80`) is set. -/
def read_timestamp (lineoffset : ℕ) (buf : ℕ → ℕ) (stride : ℕ) (pxsize : ℕ) : ℕ :=
  read_bits
    (fun bit =>
      (buf ((lineoffset * PIXELS_PER_BIT + 4) * stride
        + (bit * pxsize * PIXELS_PER_BIT + 4))).testBit 7)
    64

/-- Conversion of a 32-bit unsigned value to a C `int`
(two's-complement wraparound, as gcc implements it). -/
def to_int32 (u : ℕ) : ℤ :=
  if u < 2 ^ 31 then (u : ℤ) else (u : ℤ) - 2 ^ 32

/-- 32-bit unsigned subtraction `a - b` (the C usual arithmetic
conversions turn `int - unsigned` into unsigned arithmetic mod `2^32`). -/
def usub32 (a b : ℕ) : ℕ :=
  (a % 2 ^ 32 + (2 ^ 32 - b % 2 ^ 32)) % 2 ^ 32

/-- `const unsigned int line_stride = width * PIXEL_STRIDE;` -/
def line_stride (width : ℕ) : ℕ :=
  (width * PIXEL_STRIDE) % 2 ^ 32

/-- `int vert_offset = ((height - (number_of_clocks * PIXELS_PER_BIT)) * line_stride) / 2;`
followed by `if (vert_offset < 0) vert_offset = 0;`.  The subtraction,
multiplication and division all happen in unsigned 32-bit arithmetic
(`number_of_clocks * PIXELS_PER_BIT` is `unsigned int`), and only the
final value is converted back to `int` before the clamp. -/
def vert_offset (width height : ℕ) : ℤ :=
  max 0 (to_int32 ((usub32 height (number_of_clocks * PIXELS_PER_BIT)
    * line_stride width) % 2 ^ 32 / 2))

/-- `int horiz_offset = ((width - (number_of_bits_per_clock * PIXELS_PER_BIT)) * PIXEL_STRIDE) / 2;`
followed by `if (horiz_offset < 0) horiz_offset = 0;`, again in unsigned
32-bit arithmetic. -/
def horiz_offset (width : ℕ) : ℤ :=
  max 0 (to_int32 ((usub32 width (number_of_bits_per_clock * PIXELS_PER_BIT)
    * PIXEL_STRIDE) % 2 ^ 32 / 2))

/-- One clock slot of `decode_timestamps`: `imgdata` is `image` advanced
by `vert_offset + horiz_offset` bytes, and slot `k` is
`read_timestamp(k, imgdata, line_stride, PIXEL_STRIDE)`. -/
def decoded_clock (width height : ℕ) (image : ℕ → ℕ) (slot : ℕ) : ℕ :=
  read_timestamp slot
    (fun i => image ((vert_offset width height + horiz_offset width).toNat + i))
    (line_stride width) PIXEL_STRIDE

/-- `decode_timestamps(width, height, image, &clocks)`: fills the six
slots in order and then sets
`clocks->latency = clocks->clock_time - clocks->render_time;` in
`__uint64_t` arithmetic, i.e. the difference mod `2^64`. -/
def decode_timestamps (width height : ℕ) (image : ℕ → ℕ) : encoded_clocks_t :=
  { buffer_time := decoded_clock width height image 0
    stream_time := decoded_clock width height image 1
    running_time := decoded_clock width height image 2
    clock_time := decoded_clock width height image 3
    render_time := decoded_clock width height image 4
    render_realtime := decoded_clock width height image 5
    latency :=
      (((decoded_clock width height image 3 : ℤ)
        - (decoded_clock width height image 4 : ℤ)) % 2 ^ 64).toNat }

/-! ## PPM header parser (`read_line` / `parse_header`) -/

/-- A text line as delivered by `getline` (terminating newline included). -/
abbrev Line := List Char

/-- `strncmp(line, "P6", 2) == 0`. -/
def startsP6 (l : Line) : Bool :=
  match l with
  | 'P' :: '6' :: _ => true
  | _ => false

/-- `*line == '#'`. -/
def isCommentLine (l : Line) : Bool :=
  l.head? = some '#'

/-- C `isspace` on the characters that can occur in a header line. -/
def isSpaceChar (c : Char) : Bool :=
  c = ' ' ∨ c = '\t' ∨ c = '\n' ∨ c = '\r' ∨ c = '\x0b' ∨ c = '\x0c'

/-- Skip leading whitespace, as `sscanf`/`atoi` do before a `%d`. -/
def skipSpaces : Line → Line
  | [] => []
  | c :: cs => if isSpaceChar c then skipSpaces cs else c :: cs

/-- Accumulate a run of decimal digits. -/
def readDigits : Line → ℕ → ℕ × Line
  | [], acc => (acc, [])
  | c :: cs, acc =>
    if c.isDigit then readDigits cs (acc * 10 + (c.toNat - 48)) else (acc, c :: cs)

/-- One `%d` conversion: skip whitespace, optional sign, then at least
one digit; `none` on a matching failure (no digit found). -/
def scanInt (l : Line) : Option (ℤ × Line) :=
  match skipSpaces l with
  | [] => none
  | '-' :: rest =>
    match rest with
    | c :: _ =>
      if c.isDigit then
        some (-((readDigits rest 0).1 : ℤ), (readDigits rest 0).2)
      else none
    | [] => none
  | '+' :: rest =>
    match rest with
    | c :: _ =>
      if c.isDigit then
        some (((readDigits rest 0).1 : ℤ), (readDigits rest 0).2)
      else none
    | [] => none
  | c :: cs =>
    if c.isDigit then
      some (((readDigits (c :: cs) 0).1 : ℤ), (readDigits (c :: cs) 0).2)
    else none

/-- `sscanf(line, "%d %d", width, height)`: each output is `none` when
the corresponding conversion did not happen (the C variable keeps its
previous value); the return value of `sscanf` is ignored by the caller. -/
def sscanf_two (l : Line) : Option ℤ × Option ℤ :=
  match scanInt l with
  | none => (none, none)
  | some (a, r) =>
    match scanInt r with
    | none => (some a, none)
    | some (b, _) => (some a, some b)

/-- `atoi(line)`: 0 when no digits are found. -/
def atoi (l : Line) : ℤ :=
  match scanInt l with
  | none => 0
  | some (a, _) => a

/-- State of the `parse_header` loop: C `state` variable, the input
lines not yet consumed by `read_line`, the caller's `width`, `height`
and `depth` variables (uninitialised in `main`, hence threaded through
as arbitrary initial values), and whether `exit(1)` was reached. -/
structure PState where
  st : ℕ
  lines : List Line
  w : ℤ
  h : ℤ
  d : ℤ
  exited : Bool

/-- One iteration of the `while (state != 3)` loop in `parse_header`.
When the input is exhausted, `read_line` returns 0 and the iteration
leaves the state unchanged — the C loop spins forever in that case. -/
def pstep (s : PState) : PState :=
  if s.exited then s
  else if s.st = 3 then s
  else
    match s.lines with
    | [] => s
    | l :: rest =>
      match s.st with
      | 0 =>
        if startsP6 l then { s with st := 1, lines := rest }
        else { s with lines := rest }
      | 1 =>
        if isCommentLine l then { s with lines := rest }
        else
          { s with
            w := (sscanf_two l).1.getD s.w
            h := (sscanf_two l).2.getD s.h
            st := 2
            lines := rest }
      | 2 =>
        if isCommentLine l then { s with lines := rest }
        else
          if atoi l > 255 then { s with d := atoi l, lines := rest, exited := true }
          else { s with d := atoi l, st := 3, lines := rest }
      | _ => s

/-- Run `n` iterations of the `parse_header` loop. -/
def prun : ℕ → PState → PState
  | 0, s => s
  | n + 1, s => prun n (pstep s)

/-! ## Pixel-data loader (`load_image`) -/

/-- The per-pixel body of `load_image`: three `fgetc` calls, each
followed by an `feof` check that calls `exit(1)` (modelled as `none`)
when the stream is exhausted; successful bytes are appended to the
image buffer in R,G,B order. -/
def load_pixels : ℕ → List ℕ → Option (List ℕ)
  | 0, _ => some []
  | n + 1, stream =>
    match stream with
    | r :: g :: b :: rest => (load_pixels n rest).map (fun img => r :: g :: b :: img)
    | _ => none

/-- `load_image(fd, width, height)`: reads `width * height` pixels of
three bytes each from the remaining stream. -/
def load_image (width height : ℕ) (stream : List ℕ) : Option (List ℕ) :=
  load_pixels (width * height) stream

/-! ## Synthetic frame constructions used by the testable properties -/

/-- Byte address of the top-left corner of clock slot 0 in a 640x480
frame: vertical centering offset plus horizontal centering offset
(`414720 + 192 = 414912`). -/
def BASE_OFFSET : ℕ :=
  (HEIGHT - number_of_clocks * PIXELS_PER_BIT) * (WIDTH * PIXEL_STRIDE) / 2
    + (WIDTH - number_of_bits_per_clock * PIXELS_PER_BIT) * PIXEL_STRIDE / 2

/-- Modelled from the spec (§8 round-trip construction): a 640x480 frame
whose blocks are all black except that the red channel byte of the
interior pixel (row 4, column 4) of the block for bit `b` of clock slot
`s` is `0xFF` exactly when bit `63 - b` of `pats s` is set.  Relative to
the start of a block's sampling row the centre pixel occupies bytes
12..14, so its red channel is byte 12. -/
def synthRedCenter (pats : ℕ → ℕ) (i : ℕ) : ℕ :=
  if i < BASE_OFFSET then 0
  else
    let d := i - BASE_OFFSET
    let row := d / 1920
    let col := d % 1920
    if row % 8 = 4 ∧ row < 48 ∧ col % 24 = 12 ∧ col < 1536 then
      if (pats (row / 8)).testBit (63 - col / 24) then 255 else 0
    else 0

/-- A 640x480 frame that sets the bytes the decoder actually samples:
byte 4 of each block's sampling row (`col % 24 = 4`) is `0xFF` exactly
when bit `63 - b` of `pats s` is set, everything else is 0. -/
def sampledBuf (pats : ℕ → ℕ) (i : ℕ) : ℕ :=
  if i < BASE_OFFSET then 0
  else
    let d := i - BASE_OFFSET
    let row := d / 1920
    let col := d % 1920
    if row % 8 = 4 ∧ row < 48 ∧ col % 24 = 4 ∧ col < 1536 then
      if (pats (row / 8)).testBit (63 - col / 24) then 255 else 0
    else 0

/-- Patterns used for the latency counterexample: `clock_time` slot
decodes to 0, `render_time` slot to 1, all other slots to 0. -/
def latencyPats : ℕ → ℕ :=
  fun s => if s = 4 then 1 else 0

/-- Header fixture: the magic line "P6". -/
def lineP6 : Line := ['P', '6', '\n']

/-- Header fixture: a non-numeric dimensions line "foo bar". -/
def lineFooBar : Line := ['f', 'o', 'o', ' ', 'b', 'a', 'r', '\n']

/-- Header fixture: the maximum colour value line "255". -/
def line255 : Line := ['2', '5', '5', '\n']

/-- Header fixture: the dimensions line "640 480". -/
def lineDims : Line := ['6', '4', '0', ' ', '4', '8', '0', '\n']

/-- Header fixture: an out-of-range colour depth line "300". -/
def line300 : Line := ['3', '0', '0', '\n']

/-- Header fixture: a bad magic line "Q5". -/
def lineQ5 : Line := ['Q', '5', '\n']

/-! ## Helper lemmas -/

lemma read_bits_congr (s₁ s₂ : ℕ → Bool) (k : ℕ) (h : ∀ i < k, s₁ i = s₂ i) :
    read_bits s₁ k = read_bits s₂ k := by
  induction k with
  | zero => rfl
  | succ n ih =>
    rw [read_bits, read_bits, ih (fun i hi => h i (by omega)), h n (by omega)]

lemma lor_two_pow_eq_add {m a b : ℕ} (ha : 2 ^ m ∣ a) (hb : b < 2 ^ m) :
    a ||| b = a + b := by
  obtain ⟨q, rfl⟩ := ha
  exact (Nat.mul_add_lt_is_or hb q).symm

lemma read_bits_eq_sum (sample : ℕ → Bool) (k : ℕ) (hk : k ≤ 64) :
    read_bits sample k = ∑ i in Finset.range k, (if sample i then 2 ^ (63 - i) else 0) := by
  induction k with
  | zero => simp [read_bits]
  | succ n ih =>
    rw [read_bits, ih (by omega), Finset.sum_range_succ]
    refine lor_two_pow_eq_add (m := 64 - (n + 1) + 1) ?_ ?_
    · refine Finset.dvd_sum ?_
      intro i hi
      have hi' : i < n := Finset.mem_range.mp hi
      by_cases hs : sample i
      · simp only [hs, if_true]
        exact pow_dvd_pow 2 (by omega)
      · simp [hs]
    · by_cases hs : sample n
      · simp only [hs, if_true]
        exact Nat.pow_lt_pow_right (by norm_num) (by omega)
      · simp only [hs, if_false]
        exact Nat.two_pow_pos _

lemma base_offset_640_480 : (vert_offset 640 480 + horiz_offset 640).toNat = 414912 := by
  decide

lemma line_stride_640 : line_stride 640 = 1920 := by decide

lemma synthRedCenter_sample_zero (pats : ℕ → ℕ) {s b : ℕ} (hs : s < 6) (hb : b < 64) :
    synthRedCenter pats (414912 + ((s * 8 + 4) * 1920 + (b * 3 * 8 + 4))) = 0 := by
  have hB : BASE_OFFSET = 414912 := by decide
  simp only [synthRedCenter, hB]
  split_ifs <;> omega

lemma decoded_clock_synthRed (pats : ℕ → ℕ) {s : ℕ} (hs : s < 6) :
    decoded_clock 640 480 (synthRedCenter pats) s = 0 := by
  unfold decoded_clock read_timestamp
  simp only [base_offset_640_480, line_stride_640, PIXELS_PER_BIT, PIXEL_STRIDE]
  rw [read_bits_eq_sum _ 64 le_rfl]
  refine Finset.sum_eq_zero ?_
  intro i hi
  rw [synthRedCenter_sample_zero pats hs (Finset.mem_range.mp hi)]
  simp

lemma prun_stuck (n : ℕ) (st : ℕ) (w0 h0 d0 : ℤ) (hst : st ≠ 3) :
    prun n ⟨st, [], w0, h0, d0, false⟩ = ⟨st, [], w0, h0, d0, false⟩ := by
  induction n with
  | zero => rfl
  | succ m ih =>
    have hp : pstep ⟨st, [], w0, h0, d0, false⟩ = ⟨st, [], w0, h0, d0, false⟩ := by
      simp [pstep, hst]
    rw [prun, hp, ih]

lemma load_pixels_spec (n : ℕ) : ∀ s : List ℕ,
    load_pixels n s = if 3 * n ≤ s.length then some (s.take (3 * n)) else none := by
  induction n with
  | zero => intro s; simp [load_pixels]
  | succ m ih =>
    intro s
    match s with
    | [] =>
      rw [if_neg (by simp only [List.length_nil]; omega)]
      rfl
    | [r] =>
      rw [if_neg (by simp only [List.length_cons, List.length_nil]; omega)]
      rfl
    | [r, g] =>
      rw [if_neg (by simp only [List.length_cons, List.length_nil]; omega)]
      rfl
    | r :: g :: b :: rest =>
      have hdef : load_pixels (m + 1) (r :: g :: b :: rest)
          = (load_pixels m rest).map (fun img => r :: g :: b :: img) := rfl
      rw [hdef, ih rest]
      by_cases h : 3 * m ≤ rest.length
      · rw [if_pos h, if_pos (by simp only [List.length_cons]; omega)]
        have ht : 3 * (m + 1) = 3 * m + 1 + 1 + 1 := by ring
        rw [ht]
        simp [List.take_succ_cons]
      · rw [if_neg h, if_neg (by simp only [List.length_cons]; omega)]
        rfl


/-! ## Claim theorems -/

/-- Claim C1 (code bug).  The round-trip of the spec fails on this code:
for EVERY 64-bit pattern assignment, decoding the 640x480 frame built by
setting the red channel byte of each block's interior (centre) pixel per
the pattern yields 0 in all six clock slots (and latency 0), because the
decoder samples byte offset 4 of the block row — the green channel of
the block's second pixel — never the red byte at offset 12. -/
theorem C1_red_center_round_trip_fails (pats : ℕ → ℕ) :
    (decode_timestamps 640 480 (synthRedCenter pats)).buffer_time = 0 ∧
    (decode_timestamps 640 480 (synthRedCenter pats)).stream_time = 0 ∧
    (decode_timestamps 640 480 (synthRedCenter pats)).running_time = 0 ∧
    (decode_timestamps 640 480 (synthRedCenter pats)).clock_time = 0 ∧
    (decode_timestamps 640 480 (synthRedCenter pats)).render_time = 0 ∧
    (decode_timestamps 640 480 (synthRedCenter pats)).render_realtime = 0 ∧
    (decode_timestamps 640 480 (synthRedCenter pats)).latency = 0 := by
  have e0 := decoded_clock_synthRed pats (s := 0) (by norm_num)
  have e1 := decoded_clock_synthRed pats (s := 1) (by norm_num)
  have e2 := decoded_clock_synthRed pats (s := 2) (by norm_num)
  have e3 := decoded_clock_synthRed pats (s := 3) (by norm_num)
  have e4 := decoded_clock_synthRed pats (s := 4) (by norm_num)
  have e5 := decoded_clock_synthRed pats (s := 5) (by norm_num)
  simp [decode_timestamps, e0, e1, e2, e3, e4, e5]

/-- Claim C2 (code bug).  The sampler does NOT read the byte at
`row_byte_offset + bit * pixels_per_bit * 3 + 4 * 3` (the red channel of
the horizontally centred pixel): a buffer whose only nonzero byte is at
that claimed position (7692 for slot 0, bit 0) decodes to 0, while a
buffer whose only nonzero byte is at 7684 — `row_byte_offset + bit * 24
+ 4`, the green channel of the block's second pixel — decodes bit 0,
showing the green channel byte is exactly what is inspected. -/
theorem C2_sampler_reads_green_not_centre_red :
    read_timestamp 0 (fun i => if i = 7692 then 255 else 0) 1920 3 = 0 ∧
    read_timestamp 0 (fun i => if i = 7684 then 255 else 0) 1920 3 = 2 ^ 63 ∧
    Nat.testBit ((fun i => if i = 7692 then 255 else 0) 7692) 7 = true := by
  decide

/-- Claim C3 (confirmed).  For every buffer, slot, stride and pixel
size, the sampler's return value is the 64 sampled bits assembled
MSB-first: sampled bit `i` contributes `2 ^ (63 - i)` exactly when the
byte it samples has its high bit (`& 0x80`) set. -/
theorem C3_msb_first_assembly (lineoffset : ℕ) (buf : ℕ → ℕ) (stride pxsize : ℕ) :
    read_timestamp lineoffset buf stride pxsize
      = ∑ i in Finset.range 64,
          (if (buf ((lineoffset * PIXELS_PER_BIT + 4) * stride
              + (i * pxsize * PIXELS_PER_BIT + 4))).testBit 7
            then 2 ^ (63 - i) else 0) := by
  unfold read_timestamp
  exact read_bits_eq_sum _ 64 le_rfl

/-- Claim C4 (code bug).  The geometry offsets do not follow
`max 0, (height - grid) / 2` pixel arithmetic: at `width = 640`,
`height = 40` the unsigned 32-bit wraparound of `height - 48` makes the
vertical offset 2147475968 bytes (the `< 0` clamp never fires, where the
claim demands 0), and at `height = 49` the division happens after the
multiplication by the row stride, giving 960 bytes (half a row) where
the claim's formula gives `((49 - 48) / 2) * 1920 = 0`. -/
theorem C4_offsets_wrap_instead_of_clamping :
    vert_offset 640 40 = 2147475968 ∧
    vert_offset 640 49 = 960 ∧
    (vert_offset 640 40 + horiz_offset 640).toNat = 2147476160 := by
  decide

/-- Claim C5, counterexample.  On a frame whose sampled bytes make
`clock_time = 0`, `render_time = 1`, `render_realtime = 0`, the decoder
stores `latency = 2 ^ 64 - 1`: a huge positive value, not the negative
signed difference `clock_time - render_time = -1` (nor
`clock_time - render_realtime = 0`) that the claim predicts. -/
theorem C5_latency_not_signed_counterexample :
    (decode_timestamps 640 480 (sampledBuf latencyPats)).clock_time = 0 ∧
    (decode_timestamps 640 480 (sampledBuf latencyPats)).render_time = 1 ∧
    (decode_timestamps 640 480 (sampledBuf latencyPats)).render_realtime = 0 ∧
    (decode_timestamps 640 480 (sampledBuf latencyPats)).latency = 2 ^ 64 - 1 ∧
    ((decode_timestamps 640 480 (sampledBuf latencyPats)).latency : ℤ)
      ≠ ((decode_timestamps 640 480 (sampledBuf latencyPats)).clock_time : ℤ)
        - ((decode_timestamps 640 480 (sampledBuf latencyPats)).render_time : ℤ) ∧
    ((decode_timestamps 640 480 (sampledBuf latencyPats)).latency : ℤ)
      ≠ ((decode_timestamps 640 480 (sampledBuf latencyPats)).clock_time : ℤ)
        - ((decode_timestamps 640 480 (sampledBuf latencyPats)).render_realtime : ℤ) := by
  decide

/-- Claim C5, amended.  The aggregator sets `latency` to the UNSIGNED
64-bit value `(clock_time - render_time) mod 2^64` (the designated
render clock is `render_time`); when `render_time` exceeds `clock_time`
the value wraps to a large positive number — the two's-complement bit
pattern of the signed difference — rather than being negative. -/
theorem C5_latency_is_wrapped_unsigned_difference (width height : ℕ) (image : ℕ → ℕ) :
    (decode_timestamps width height image).latency < 2 ^ 64 ∧
    ((decode_timestamps width height image).latency : ℤ)
      = (((decode_timestamps width height image).clock_time : ℤ)
          - ((decode_timestamps width height image).render_time : ℤ)) % 2 ^ 64 := by
  simp only [decode_timestamps]
  have h1 : ((decoded_clock width height image 3 : ℤ)
      - (decoded_clock width height image 4 : ℤ)) % 2 ^ 64 < 2 ^ 64 :=
    Int.emod_lt_of_pos _ (by norm_num)
  have h2 : 0 ≤ ((decoded_clock width height image 3 : ℤ)
      - (decoded_clock width height image 4 : ℤ)) % 2 ^ 64 :=
    Int.emod_nonneg _ (by norm_num)
  omega


/-- Claim C6 (code bug).  On an input that ends before the three header
fields are parsed (here: a file containing only the magic line "P6"),
the `parse_header` loop never terminates: `read_line` fails forever at
end of input and the state machine never reaches the final state, so no
error is reported — contradicting the claimed `TruncatedInputError`. -/
theorem C6_truncated_header_never_terminates (n : ℕ) (w0 h0 d0 : ℤ) :
    (prun n ⟨0, [lineP6], w0, h0, d0, false⟩).st ≠ 3 ∧
    (prun n ⟨0, [lineP6], w0, h0, d0, false⟩).exited = false := by
  cases n with
  | zero =>
    refine ⟨?_, rfl⟩
    show (0 : ℕ) ≠ 3
    decide
  | succ m =>
    have hp : pstep ⟨0, [lineP6], w0, h0, d0, false⟩
        = ⟨1, [], w0, h0, d0, false⟩ := rfl
    have hr : prun (m + 1) ⟨0, [lineP6], w0, h0, d0, false⟩
        = ⟨1, [], w0, h0, d0, false⟩ := by
      rw [prun, hp, prun_stuck m 1 w0 h0 d0 (by decide)]
    rw [hr]
    refine ⟨?_, rfl⟩
    show (1 : ℕ) ≠ 3
    decide

/-- Claim C7 (code bug).  Of the three malformed-header cases only
`depth > 255` exits with status 1: (a) with non-numeric dimensions
("P6", "foo bar", "255") the parser finishes normally (`st = 3`, no
exit) and width/height keep whatever values the caller's uninitialised
variables held; (b) with a valid header but depth 300 the parser calls
`exit(1)` before reaching the final state (decode never attempted);
(c) with a bad magic line ("Q5") and nothing else, the parser loops
forever instead of exiting with status 1. -/
theorem C7_malformed_header_behaviour (w0 h0 d0 : ℤ) :
    ((prun 3 ⟨0, [lineP6, lineFooBar, line255], w0, h0, d0, false⟩).st = 3 ∧
     (prun 3 ⟨0, [lineP6, lineFooBar, line255], w0, h0, d0, false⟩).exited = false ∧
     (prun 3 ⟨0, [lineP6, lineFooBar, line255], w0, h0, d0, false⟩).w = w0 ∧
     (prun 3 ⟨0, [lineP6, lineFooBar, line255], w0, h0, d0, false⟩).h = h0 ∧
     (prun 3 ⟨0, [lineP6, lineFooBar, line255], w0, h0, d0, false⟩).d = 255) ∧
    ((prun 3 ⟨0, [lineP6, lineDims, line300], w0, h0, d0, false⟩).exited = true ∧
     (prun 3 ⟨0, [lineP6, lineDims, line300], w0, h0, d0, false⟩).st = 2) ∧
    (∀ n, (prun n ⟨0, [lineQ5], w0, h0, d0, false⟩).st ≠ 3 ∧
          (prun n ⟨0, [lineQ5], w0, h0, d0, false⟩).exited = false) := by
  refine ⟨⟨rfl, rfl, rfl, rfl, rfl⟩, ⟨rfl, rfl⟩, ?_⟩
  intro n
  cases n with
  | zero =>
    refine ⟨?_, rfl⟩
    show (0 : ℕ) ≠ 3
    decide
  | succ m =>
    have hp : pstep ⟨0, [lineQ5], w0, h0, d0, false⟩
        = ⟨0, [], w0, h0, d0, false⟩ := rfl
    have hr : prun (m + 1) ⟨0, [lineQ5], w0, h0, d0, false⟩
        = ⟨0, [], w0, h0, d0, false⟩ := by
      rw [prun, hp, prun_stuck m 0 w0 h0 d0 (by decide)]
    rw [hr]
    refine ⟨?_, rfl⟩
    show (0 : ℕ) ≠ 3
    decide

/-- Claim C8 (confirmed).  `load_image` consumes exactly
`width * height * 3` bytes of the remaining stream, in order (row-major
R,G,B): it returns that prefix when the stream is long enough and fails
(`exit(1)`, modelled as `none`, no partial buffer) when the stream ends
before `width * height * 3` bytes are available. -/
theorem C8_load_image_exact_bytes (width height : ℕ) (stream : List ℕ) :
    load_image width height stream
      = if width * height * 3 ≤ stream.length
        then some (stream.take (width * height * 3)) else none := by
  rw [load_image, load_pixels_spec]
  have h : 3 * (width * height) = width * height * 3 := by ring
  rw [h]

/-- Claim C9 (confirmed).  Decoding is a pure function of the frame
contents: two invocations on buffers with identical bytes produce
identical `encoded_clocks_t` records (in this embedding the decoder is a
function, so no cross-invocation state can exist; the theorem records
that the result depends only on the byte values of the buffer). -/
theorem C9_decode_deterministic (width height : ℕ) (img img2 : ℕ → ℕ)
    (h : ∀ i, img i = img2 i) :
    decode_timestamps width height img = decode_timestamps width height img2 := by
  rw [funext h]

/-- Witness for C9 at a concrete input: two syntactically different but
pointwise equal buffers decode identically. -/
theorem C9_decode_deterministic_witness :
    decode_timestamps 640 480 (fun _ => 37)
      = decode_timestamps 640 480 (fun i => 37 + 0 * i) :=
  C9_decode_deterministic 640 480 (fun _ => 37) (fun i => 37 + 0 * i)
    (fun i => by simp)

/-- Claim C10 (confirmed).  For a 640x480 frame every byte the decoder
samples lies inside the `640 * 480 * 3 = 921600`-byte buffer: the
decode result depends only on bytes at indices below `921600`, so the
resolution check in `main` rules out any out-of-bounds access. -/
theorem C10_all_samples_in_bounds (img img2 : ℕ → ℕ)
    (h : ∀ i < 640 * 480 * 3, img i = img2 i) :
    decode_timestamps 640 480 img = decode_timestamps 640 480 img2 := by
  have e : ∀ slot, slot ≤ 5 →
      decoded_clock 640 480 img slot = decoded_clock 640 480 img2 slot := by
    intro slot hs
    unfold decoded_clock read_timestamp
    refine read_bits_congr _ _ 64 ?_
    intro b hb
    simp only [base_offset_640_480, line_stride_640, PIXELS_PER_BIT, PIXEL_STRIDE]
    rw [h (414912 + ((slot * 8 + 4) * 1920 + (b * 3 * 8 + 4))) (by omega)]
  unfold decode_timestamps
  rw [e 0 (by omega), e 1 (by omega), e 2 (by omega), e 3 (by omega),
    e 4 (by omega), e 5 (by omega)]

/-- Witness for C10 at a concrete input: a buffer that differs only at
indices at or beyond 921600 decodes identically to the all-zero one. -/
theorem C10_all_samples_in_bounds_witness :
    decode_timestamps 640 480 (fun _ => 0)
      = decode_timestamps 640 480 (fun i => if i < 640 * 480 * 3 then 0 else 255) :=
  C10_all_samples_in_bounds (fun _ => 0)
    (fun i => if i < 640 * 480 * 3 then 0 else 255)
    (fun i hi => by simp [hi])

end LatencyClock
